import Mathlib

/-!
Shallow embedding of the `bevy_transitions` crate (src/lib.rs) and proofs
about its transition state machine.

Modelling conventions:
- `f32` values (opacities, speeds, times) are modelled as exact rationals `ℚ`.
- The `Transition<S>` system param (a message writer plus the two process-wide
  resources `TransitionSpeed` and `PendingState<S>`) is modelled as the
  structure `Transition S`; the messages written so far live in `writer`.
- The `apply_fade` system's per-overlay loop body is `fadeStep`; the whole
  loop over the query of `FadeOverlay` background colors (represented by their
  alpha values) is `apply_fade`, threading the shared state left to right as
  the Rust `for` loop does.
- The spawned overlay bundle of `on_camera_change` is the record
  `FadeOverlayBundle` with one field per component in the Rust bundle.
- `on_camera_despawn` receives the `Overlays` relationship lookup as a
  function from surface (camera) ids to an optional list of overlay entity
  ids and returns the list of entities it despawns.
-/

namespace BevyTransitions

/-- Rust's `f32::clamp(lo, hi)` for `lo ≤ hi`, on rationals: values below
`lo` go to `lo`, values above `hi` go to `hi`. -/
def clampQ (x lo hi : ℚ) : ℚ := if x < lo then lo else if hi < x then hi else x

/-- The `Transition<S>` system param: the `TransitionMessage` writer (messages
written so far, in order), the `TransitionSpeed` resource (default `2.0`), and
the `PendingState<S>` resource (default `None`). -/
structure Transition (S : Type) where
  writer : List S
  speed : ℚ
  pending_state : Option S
deriving DecidableEq, Repr

/-- `Transition::to`: store the target into `PendingState` (overwriting) and
set the speed to the absolute value of the current speed. -/
def Transition.to {S : Type} (t : Transition S) (state : S) : Transition S :=
  { t with pending_state := some state, speed := |t.speed| }

/-- `Transition::take_pending`: `Option::take` on the pending state. -/
def Transition.take_pending {S : Type} (t : Transition S) :
    Option S × Transition S :=
  (t.pending_state, { t with pending_state := none })

/-- One iteration of the `for mut overlay in &mut q_overlays` loop body of
`TransitionsPlugin::apply_fade`: clamp the advanced alpha into `[0, 1]`,
write it back, and if it reached `1` while a pending state is present, take
the pending state, write a `TransitionMessage` carrying it, and set the speed
to minus its absolute value. -/
def fadeStep {S : Type} (dt : ℚ) (t : Transition S) (a : ℚ) :
    ℚ × Transition S :=
  let alpha := clampQ (a + t.speed * dt) 0 1
  if 1 ≤ alpha then
    match t.take_pending with
    | (some pending, t') =>
        (alpha, { t' with writer := t'.writer ++ [pending], speed := -|t'.speed| })
    | (none, _) => (alpha, t)
  else
    (alpha, t)

/-- `TransitionsPlugin::apply_fade`: fold `fadeStep` over every existing
overlay's alpha in query order, threading the shared `Transition` state.
Returns the updated alphas together with the final shared state. -/
def apply_fade {S : Type} (dt : ℚ) (t : Transition S) :
    List ℚ → List ℚ × Transition S
  | [] => ([], t)
  | a :: rest =>
    let step := fadeStep dt t a
    let r := apply_fade dt step.2 rest
    (step.1 :: r.1, r.2)

/-- Ghost observation of `apply_fade`: the value of `transition.speed()` read
by the loop body for each successive overlay (the speed used to advance that
overlay's alpha). -/
def speedsUsed {S : Type} (dt : ℚ) (t : Transition S) : List ℚ → List ℚ
  | [] => []
  | a :: rest => t.speed :: speedsUsed dt (fadeStep dt t a).2 rest

/-- `TransitionsPlugin::handle_transition_events`: for every received
`TransitionMessage` in arrival order, call `NextState::set` with its carried
state. The `NextState<S>` resource slot is modelled as an `Option S`. -/
def handle_transition_events {S : Type} (events : List S)
    (next_state : Option S) : Option S :=
  events.foldl (fun _ event => some event) next_state

/-- `Color::linear_rgba` components of a `BackgroundColor`. -/
structure LinearRgba where
  red : ℚ
  green : ℚ
  blue : ℚ
  alpha : ℚ
deriving DecidableEq, Repr, Inhabited

/-- The component bundle spawned by `TransitionsPlugin::on_camera_change`,
one field per component: `Name`, `BackgroundColor` (linear rgba), the
`UiTargetCamera` and `OverlayOf` targets, `FocusPolicy::Pass`,
`InteractionDisabled`, `Pickable::IGNORE`, `GlobalZIndex`, and the `Node`
layout fields that are set (absolute position, top/left `0`, width/height
`100` percent). -/
structure FadeOverlayBundle where
  name : String
  background_color : LinearRgba
  ui_target_camera : Nat
  overlay_of : Nat
  focus_policy_pass : Bool
  interaction_disabled : Bool
  pickable_ignore : Bool
  global_z_index : Int
  position_absolute : Bool
  top : ℚ
  left : ℚ
  width_percent : ℚ
  height_percent : ℚ
deriving DecidableEq, Repr, Inhabited

/-- `TransitionsPlugin::on_camera_change`: on `Add` of the camera component,
spawn one fade-overlay entity targeting the event's camera. Returned as the
list of bundles spawned by the handler. -/
def on_camera_change (target : Nat) : List FadeOverlayBundle :=
  [{ name := "Fade Overlay"
   , background_color := { red := 0, green := 0, blue := 0, alpha := 1 }
   , ui_target_camera := target
   , overlay_of := target
   , focus_policy_pass := true
   , interaction_disabled := true
   , pickable_ignore := true
   , global_z_index := 2147483647
   , position_absolute := true
   , top := 0
   , left := 0
   , width_percent := 100
   , height_percent := 100 }]

/-- `TransitionsPlugin::on_camera_despawn`: on `Remove` of the `Overlays`
relationship target, look up the target's `Overlays` component (`q_overlays`,
given as a lookup function from camera entity to the optional list of overlay
entities it owns); if absent, return early despawning nothing, else despawn
every entity in the list. Returns the entities despawned. -/
def on_camera_despawn (q_overlays : Nat → Option (List Nat))
    (target : Nat) : List Nat :=
  match q_overlays target with
  | none => []
  | some overlays => overlays

/-- Default value of the `TransitionSpeed` resource. -/
def TransitionSpeed.default : ℚ := 2

/-! ### Helper lemmas about `clampQ` and `fadeStep` -/

theorem clampQ_le_one (x : ℚ) : clampQ x 0 1 ≤ 1 := by
  unfold clampQ
  split_ifs with h1 h2
  · exact zero_le_one
  · exact le_refl 1
  · exact not_lt.mp h2

theorem clampQ_nonneg (x : ℚ) : 0 ≤ clampQ x 0 1 := by
  unfold clampQ
  split_ifs with h1 h2
  · exact le_refl 0
  · exact zero_le_one
  · exact not_lt.mp h1

theorem clampQ_of_one_le {x : ℚ} (h : 1 ≤ x) : clampQ x 0 1 = 1 := by
  unfold clampQ
  split_ifs with h1 h2
  · exact absurd (lt_of_le_of_lt h h1) (by norm_num)
  · rfl
  · exact le_antisymm (not_lt.mp h2) h

theorem fadeStep_commit {S : Type} (dt : ℚ) (t : Transition S) (a : ℚ) (p : S)
    (hp : t.pending_state = some p) (h1 : 1 ≤ clampQ (a + t.speed * dt) 0 1) :
    fadeStep dt t a =
      (clampQ (a + t.speed * dt) 0 1,
        { writer := t.writer ++ [p], speed := -|t.speed|, pending_state := none }) := by
  simp only [fadeStep, Transition.take_pending]
  rw [hp, if_pos h1]

theorem fadeStep_of_none {S : Type} (dt : ℚ) (t : Transition S) (a : ℚ)
    (h : t.pending_state = none) :
    fadeStep dt t a = (clampQ (a + t.speed * dt) 0 1, t) := by
  simp only [fadeStep, Transition.take_pending]
  rw [h]
  split <;> rfl

theorem fadeStep_no_commit {S : Type} (dt : ℚ) (t : Transition S) (a : ℚ)
    (h : clampQ (a + t.speed * dt) 0 1 < 1) :
    fadeStep dt t a = (clampQ (a + t.speed * dt) 0 1, t) := by
  simp only [fadeStep, Transition.take_pending]
  rw [if_neg (not_le.mpr h)]

theorem fadeStep_fst {S : Type} (dt : ℚ) (t : Transition S) (a : ℚ) :
    (fadeStep dt t a).1 = clampQ (a + t.speed * dt) 0 1 := by
  rcases lt_or_le (clampQ (a + t.speed * dt) 0 1) 1 with h | h
  · rw [fadeStep_no_commit dt t a h]
  · cases hp : t.pending_state with
    | none => rw [fadeStep_of_none dt t a hp]
    | some p => rw [fadeStep_commit dt t a p hp h]

theorem fadeStep_cases {S : Type} (dt : ℚ) (t : Transition S) (a : ℚ) :
    (fadeStep dt t a).2 = t ∨
      ∃ p, t.pending_state = some p ∧ 1 ≤ clampQ (a + t.speed * dt) 0 1 ∧
        (fadeStep dt t a).2 =
          { writer := t.writer ++ [p], speed := -|t.speed|, pending_state := none } := by
  rcases lt_or_le (clampQ (a + t.speed * dt) 0 1) 1 with h | h
  · left
    rw [fadeStep_no_commit dt t a h]
  · cases hp : t.pending_state with
    | none =>
      left
      rw [fadeStep_of_none dt t a hp]
    | some p =>
      right
      exact ⟨p, rfl, h, by rw [fadeStep_commit dt t a p hp h]⟩

theorem fadeStep_writer_mono {S : Type} (dt : ℚ) (t : Transition S) (a : ℚ) :
    ∃ l, (fadeStep dt t a).2.writer = t.writer ++ l := by
  rcases fadeStep_cases dt t a with h | ⟨p, _, _, h⟩
  · refine ⟨[], ?_⟩
    rw [h, List.append_nil]
  · refine ⟨[p], ?_⟩
    rw [h]

theorem apply_fade_writer_mono {S : Type} (dt : ℚ) (overlays : List ℚ) :
    ∀ t : Transition S, ∃ l,
      (apply_fade dt t overlays).2.writer = t.writer ++ l := by
  induction overlays with
  | nil =>
    intro t
    refine ⟨[], ?_⟩
    simp only [apply_fade, List.append_nil]
  | cons a rest ih =>
    intro t
    obtain ⟨l1, h1⟩ := fadeStep_writer_mono dt t a
    obtain ⟨l2, h2⟩ := ih (fadeStep dt t a).2
    refine ⟨l1 ++ l2, ?_⟩
    simp only [apply_fade]
    rw [h2, h1, List.append_assoc]

theorem apply_fade_no_msg {S : Type} (dt : ℚ) (overlays : List ℚ) :
    ∀ t : Transition S, (apply_fade dt t overlays).2.writer = t.writer →
      (apply_fade dt t overlays).2 = t ∧
      speedsUsed dt t overlays = List.replicate overlays.length t.speed := by
  induction overlays with
  | nil =>
    intro t _
    constructor
    · simp only [apply_fade]
    · rfl
  | cons a rest ih =>
    intro t h
    have hsnd : (apply_fade dt t (a :: rest)).2 =
        (apply_fade dt (fadeStep dt t a).2 rest).2 := by
      simp only [apply_fade]
    rcases fadeStep_cases dt t a with hstep | ⟨p, hp, h1, hstep⟩
    · rw [hsnd, hstep] at h
      obtain ⟨ih1, ih2⟩ := ih t h
      constructor
      · rw [hsnd, hstep]
        exact ih1
      · simp only [speedsUsed, hstep, ih2, List.length_cons, List.replicate_succ]
    · exfalso
      obtain ⟨l, hl⟩ := apply_fade_writer_mono dt rest (fadeStep dt t a).2
      have hw : (fadeStep dt t a).2.writer = t.writer ++ [p] := by rw [hstep]
      rw [hsnd, hl, hw] at h
      have hlen := congrArg List.length h
      simp only [List.length_append, List.length_cons, List.length_nil] at hlen
      omega

theorem speedsUsed_append {S : Type} (dt : ℚ) (l1 l2 : List ℚ) :
    ∀ t : Transition S,
      speedsUsed dt t (l1 ++ l2) =
        speedsUsed dt t l1 ++ speedsUsed dt (apply_fade dt t l1).2 l2 := by
  induction l1 with
  | nil =>
    intro t
    simp only [List.nil_append, speedsUsed, apply_fade]
  | cons a l1 ih =>
    intro t
    simp only [List.cons_append, speedsUsed, apply_fade, List.append_eq,
      ih (fadeStep dt t a).2]

theorem speedsUsed_of_pending_none {S : Type} (dt : ℚ) (t : Transition S)
    (overlays : List ℚ) (h : t.pending_state = none) :
    speedsUsed dt t overlays = List.replicate overlays.length t.speed := by
  induction overlays with
  | nil => rfl
  | cons a rest ih =>
    have hstep : (fadeStep dt t a).2 = t := by
      rw [fadeStep_of_none dt t a h]
    simp only [speedsUsed, hstep, ih, List.length_cons, List.replicate_succ]

/-! ### Claim theorems -/

/-- C1 counterexample: the claim says the overlay spawned by
`on_camera_change` has opacity initialized to 0, but the bundle spawned for
camera `0` uses `Color::linear_rgba(0.0, 0.0, 0.0, 1.0)`, whose alpha is 1. -/
theorem C1_counterexample :
    ¬ ∀ b ∈ on_camera_change 0, b.background_color.alpha = 0 := by
  decide

/-- C1 (amended): `on_camera_change` creates exactly one new overlay owned by
the appearing camera, full-surface-covering (absolute position, top/left 0,
width/height 100 percent), topmost in draw order (`GlobalZIndex(i32::MAX)`),
non-interactive (`FocusPolicy::Pass`, `InteractionDisabled`,
`Pickable::IGNORE`), black, with opacity initialized to 1 (fully opaque)
rather than 0. -/
theorem C1_overlay_spawn (target : Nat) :
    (on_camera_change target).length = 1 ∧
    ∀ b ∈ on_camera_change target,
      b.overlay_of = target ∧
      b.ui_target_camera = target ∧
      b.background_color.alpha = 1 ∧
      b.background_color.red = 0 ∧
      b.background_color.green = 0 ∧
      b.background_color.blue = 0 ∧
      b.global_z_index = 2147483647 ∧
      b.focus_policy_pass = true ∧
      b.interaction_disabled = true ∧
      b.pickable_ignore = true ∧
      b.position_absolute = true ∧
      b.top = 0 ∧ b.left = 0 ∧
      b.width_percent = 100 ∧ b.height_percent = 100 := by
  refine ⟨rfl, ?_⟩
  intro b hb
  rw [on_camera_change, List.mem_singleton] at hb
  subst hb
  exact ⟨rfl, rfl, rfl, rfl, rfl, rfl, rfl, rfl, rfl, rfl, rfl, rfl, rfl, rfl, rfl⟩

/-- C1 witness: the spawn bundle for camera 7, examined concretely. -/
theorem C1_witness :
    (on_camera_change 7).length = 1 ∧
    (on_camera_change 7).headI.overlay_of = 7 ∧
    (on_camera_change 7).headI.background_color.alpha = 1 := by
  have h := (C1_overlay_spawn 7).2 (on_camera_change 7).headI (by decide)
  exact ⟨(C1_overlay_spawn 7).1, h.1, h.2.2.1⟩

/-- C2: in a fade-driver step where the clamped opacity reaches 1 while a
pending request `p` is present, the pending value is taken (consumed: the
pending slot becomes `none`), exactly one message carrying `p` is written,
and the speed becomes minus its absolute value; if the clamped opacity stays
below 1, or no request is pending, the shared state (messages, speed,
pending slot) is left entirely unchanged, so no message is emitted. -/
theorem C2_commit_once {S : Type} (dt : ℚ) (t : Transition S) (a : ℚ) :
    (∀ p, t.pending_state = some p → 1 ≤ clampQ (a + t.speed * dt) 0 1 →
        (fadeStep dt t a).2.pending_state = none ∧
        (fadeStep dt t a).2.writer = t.writer ++ [p] ∧
        (fadeStep dt t a).2.speed = -|t.speed|) ∧
    (clampQ (a + t.speed * dt) 0 1 < 1 → (fadeStep dt t a).2 = t) ∧
    (t.pending_state = none → (fadeStep dt t a).2 = t) := by
  refine ⟨?_, ?_, ?_⟩
  · intro p hp h1
    rw [fadeStep_commit dt t a p hp h1]
    exact ⟨rfl, rfl, rfl⟩
  · intro h
    rw [fadeStep_no_commit dt t a h]
  · intro h
    rw [fadeStep_of_none dt t a h]

/-- C2 witness: speed 2, pending `true`, opacity 0, dt 1 saturates at 1 and
commits. -/
theorem C2_witness :
    (fadeStep 1 (⟨[], 2, some true⟩ : Transition Bool) 0).2.pending_state = none ∧
    (fadeStep 1 (⟨[], 2, some true⟩ : Transition Bool) 0).2.writer = [true] ∧
    (fadeStep 1 (⟨[], 2, some true⟩ : Transition Bool) 0).2.speed = -|(2 : ℚ)| := by
  have h := (C2_commit_once 1 (⟨[], 2, some true⟩ : Transition Bool) 0).1 true rfl
    (by norm_num [clampQ])
  exact ⟨h.1, h.2.1, h.2.2⟩

/-- C3: `Transition::to` stores the target into the pending slot overwriting
any prior value, sets the speed to the absolute value of the current speed,
writes no message, and requesting `a` then `b` yields exactly the same state
as requesting only `b` — so only `b` can ever be committed. -/
theorem C3_request_overwrites {S : Type} (t : Transition S) (a b : S) :
    (t.to a).pending_state = some a ∧
    (t.to a).speed = |t.speed| ∧
    (t.to a).writer = t.writer ∧
    (t.to a).to b = t.to b := by
  refine ⟨rfl, rfl, rfl, ?_⟩
  simp [Transition.to, abs_abs]

/-- C4: for every overlay and every dt (non-negative by the clock contract),
the opacity after a fade-driver step equals `clamp(opacity + speed * dt, 0, 1)`
and therefore always lies within `[0, 1]`. -/
theorem C4_opacity_clamped {S : Type} (dt : ℚ) (hdt : 0 ≤ dt)
    (t : Transition S) (a : ℚ) :
    (fadeStep dt t a).1 = clampQ (a + t.speed * dt) 0 1 ∧
    0 ≤ (fadeStep dt t a).1 ∧ (fadeStep dt t a).1 ≤ 1 := by
  have hfst := fadeStep_fst dt t a
  refine ⟨hfst, ?_, ?_⟩
  · rw [hfst]; exact clampQ_nonneg _
  · rw [hfst]; exact clampQ_le_one _

/-- C4 witness: a very large dt (`5` seconds at speed 2) still lands in
`[0, 1]`. -/
theorem C4_witness :
    (fadeStep 5 (⟨[], 2, none⟩ : Transition Bool) (3/4)).1 =
      clampQ (3/4 + 2 * 5) 0 1 ∧
    0 ≤ (fadeStep 5 (⟨[], 2, none⟩ : Transition Bool) (3/4)).1 ∧
    (fadeStep 5 (⟨[], 2, none⟩ : Transition Bool) (3/4)).1 ≤ 1 :=
  C4_opacity_clamped 5 (by norm_num) (⟨[], 2, none⟩ : Transition Bool) (3/4)

/-- C5: the speed magnitude is preserved by every sign-changing operation:
`Transition::to` sets the speed to `|speed|` and the commit sets it to
`-|speed|`, both of which keep `|speed|` unchanged; in particular, when the
speed was positive before a commit, the speed after the commit is exactly its
negation (sign flips from positive to negative, magnitude unchanged). -/
theorem C5_magnitude_preserved {S : Type} (t : Transition S) (s : S)
    (dt a : ℚ) :
    |(t.to s).speed| = |t.speed| ∧
    (∀ p, t.pending_state = some p → 1 ≤ clampQ (a + t.speed * dt) 0 1 →
        |(fadeStep dt t a).2.speed| = |t.speed| ∧
        (0 < t.speed → (fadeStep dt t a).2.speed = -t.speed)) := by
  constructor
  · simp [Transition.to, abs_abs]
  · intro p hp h1
    rw [fadeStep_commit dt t a p hp h1]
    constructor
    · simp [abs_neg, abs_abs]
    · intro hpos
      simp [abs_of_pos hpos]

/-- C5 witness: speed 2, a commit at opacity 1 flips it to −2; magnitudes
are preserved throughout. -/
theorem C5_witness :
    |((⟨[], 2, some true⟩ : Transition Bool).to false).speed| = |(2 : ℚ)| ∧
    |(fadeStep 1 (⟨[], 2, some true⟩ : Transition Bool) 0).2.speed| = |(2 : ℚ)| ∧
    (fadeStep 1 (⟨[], 2, some true⟩ : Transition Bool) 0).2.speed = -2 := by
  have h := C5_magnitude_preserved (⟨[], 2, some true⟩ : Transition Bool) false 1 0
  have h2 := h.2 true rfl (by norm_num [clampQ])
  exact ⟨h.1, h2.1, h2.2 (by norm_num)⟩

/-- C6: if opacity is 1 with no pending request and a non-negative speed,
a fade-driver step is the identity (opacity stays 1, no message, no flip of
the speed, pending stays empty); after `Transition::to c` is called, the very
next step keeps opacity at 1 and immediately writes the message carrying `c`
(consuming the pending value), with no re-fade required. -/
theorem C6_dark_idle_then_immediate_commit {S : Type} (t : Transition S)
    (dt dt2 : ℚ) (c : S) (hp : t.pending_state = none) (hs : 0 ≤ t.speed)
    (hdt : 0 ≤ dt) (hdt2 : 0 ≤ dt2) :
    fadeStep dt t 1 = (1, t) ∧
    (fadeStep dt2 (t.to c) 1).1 = 1 ∧
    (fadeStep dt2 (t.to c) 1).2.writer = t.writer ++ [c] ∧
    (fadeStep dt2 (t.to c) 1).2.pending_state = none := by
  have h1 : clampQ (1 + t.speed * dt) 0 1 = 1 :=
    clampQ_of_one_le (le_add_of_nonneg_right (mul_nonneg hs hdt))
  have habs : (t.to c).speed = t.speed := by
    simp [Transition.to, abs_of_nonneg hs]
  have h2 : clampQ (1 + (t.to c).speed * dt2) 0 1 = 1 := by
    rw [habs]
    exact clampQ_of_one_le (le_add_of_nonneg_right (mul_nonneg hs hdt2))
  have hcommit := fadeStep_commit dt2 (t.to c) 1 c rfl (le_of_eq h2.symm)
  refine ⟨?_, ?_, ?_, ?_⟩
  · rw [fadeStep_of_none dt t 1 hp, h1]
  · rw [hcommit]
    exact h2
  · rw [hcommit]
    rfl
  · rw [hcommit]

/-- C6 witness: at opacity 1 with speed 2 and nothing pending, a tick is a
no-op; after requesting `true`, the next tick commits it at once. -/
theorem C6_witness :
    fadeStep (1/2) (⟨[], 2, none⟩ : Transition Bool) 1 = (1, ⟨[], 2, none⟩) ∧
    (fadeStep 3 ((⟨[], 2, none⟩ : Transition Bool).to true) 1).1 = 1 ∧
    (fadeStep 3 ((⟨[], 2, none⟩ : Transition Bool).to true) 1).2.writer = [true] ∧
    (fadeStep 3 ((⟨[], 2, none⟩ : Transition Bool).to true) 1).2.pending_state
      = none := by
  have h := C6_dark_idle_then_immediate_commit (⟨[], 2, none⟩ : Transition Bool)
    (1/2) 3 true rfl (by norm_num) (by norm_num) (by norm_num)
  exact ⟨h.1, h.2.1, h.2.2.1, h.2.2.2⟩

/-- C7: `on_camera_despawn` is a silent no-op when the removed camera has no
`Overlays` component, and otherwise despawns exactly the entities of its
overlay set — every member and no others. -/
theorem C7_despawn_exact (q : Nat → Option (List Nat)) (cam : Nat) :
    (q cam = none → on_camera_despawn q cam = []) ∧
    (∀ l, q cam = some l → on_camera_despawn q cam = l) := by
  constructor
  · intro h
    simp [on_camera_despawn, h]
  · intro l h
    simp [on_camera_despawn, h]

/-- C7 witness: camera 0 owns overlays 5 and 6 and exactly those are
despawned; camera 1 owns nothing and the handler is a no-op. -/
theorem C7_witness :
    on_camera_despawn (fun n => if n = 0 then some [5, 6] else none) 0 = [5, 6] ∧
    on_camera_despawn (fun n => if n = 0 then some [5, 6] else none) 1 = [] :=
  ⟨(C7_despawn_exact (fun n => if n = 0 then some [5, 6] else none) 0).2 [5, 6] rfl,
   (C7_despawn_exact (fun n => if n = 0 then some [5, 6] else none) 1).1 rfl⟩

/-- C8 counterexample: the claim says the speed used to advance opacity is
identical for every overlay within one tick, for any number of overlays. With
two overlays both at opacity 1, speed 2 and a pending request, the first
overlay commits and flips the shared speed, so the second overlay of the same
tick is advanced with speed −2 ≠ 2. -/
theorem C8_counterexample :
    ¬ ∀ s ∈ speedsUsed 1 (⟨[], 2, some true⟩ : Transition Bool) [1, 1],
        s = (⟨[], 2, some true⟩ : Transition Bool).speed := by
  intro h
  have hstep : fadeStep 1 (⟨[], 2, some true⟩ : Transition Bool) 1 =
      (1, ⟨[true], -2, none⟩) := by
    rw [fadeStep_commit 1 (⟨[], 2, some true⟩ : Transition Bool) 1 true rfl
      (by norm_num [clampQ])]
    norm_num [clampQ]
  have hmem : (-2 : ℚ) ∈
      speedsUsed 1 (⟨[], 2, some true⟩ : Transition Bool) [1, 1] := by
    simp [speedsUsed, hstep]
  have hcontra := h (-2) hmem
  norm_num at hcontra

/-- C8 (amended): the speed used for each overlay is the value of the shared
process-wide `TransitionSpeed` current when that overlay is processed. It is
identical for every overlay in any tick in which no commit fires, a commit
being exactly the emission of a message: whenever the tick leaves the message
writer unchanged, every overlay was advanced with the same shared speed. When
an overlay's commit does fire mid-tick — a quiet prefix `l1` of overlays
emits nothing, then overlay `a` saturates with a request pending — the
overlays of the prefix and the committing overlay itself are advanced with
the original shared speed, and every overlay processed later in the same
tick is advanced with the flipped speed `-|speed|`. -/
theorem C8_shared_speed {S : Type} (dt : ℚ) (t : Transition S) :
    (∀ overlays : List ℚ, (apply_fade dt t overlays).2.writer = t.writer →
        speedsUsed dt t overlays = List.replicate overlays.length t.speed) ∧
    (∀ (l1 : List ℚ) (a : ℚ) (rest : List ℚ) (p : S),
        (apply_fade dt t l1).2.writer = t.writer →
        t.pending_state = some p →
        1 ≤ clampQ (a + t.speed * dt) 0 1 →
        speedsUsed dt t (l1 ++ a :: rest) =
          List.replicate l1.length t.speed ++
            t.speed :: List.replicate rest.length (-|t.speed|)) := by
  constructor
  · intro overlays h
    exact (apply_fade_no_msg dt overlays t h).2
  · intro l1 a rest p hl1 hp h1
    obtain ⟨hstate, hspeeds⟩ := apply_fade_no_msg dt l1 t hl1
    rw [speedsUsed_append dt l1 (a :: rest) t, hstate, hspeeds]
    have hsnd : (fadeStep dt t a).2 =
        ({ writer := t.writer ++ [p], speed := -|t.speed|,
           pending_state := none } : Transition S) := by
      rw [fadeStep_commit dt t a p hp h1]
    have hrest := speedsUsed_of_pending_none dt
      ({ writer := t.writer ++ [p], speed := -|t.speed|,
         pending_state := none } : Transition S) rest rfl
    simp [speedsUsed, hsnd, hrest]

/-- C8 witness: with no pending request a two-overlay tick emits nothing and
both overlays are advanced with the shared speed 2; with a pending request,
an empty quiet prefix and the first overlay saturated, the second overlay of
the same tick is advanced with the flipped speed. -/
theorem C8_witness :
    speedsUsed 1 (⟨[], 2, none⟩ : Transition Bool) [0, 1] =
      List.replicate 2 2 ∧
    speedsUsed 1 (⟨[], 2, some true⟩ : Transition Bool) ([] ++ 1 :: [1]) =
      List.replicate 0 2 ++ 2 :: List.replicate 1 (-|(2 : ℚ)|) := by
  constructor
  · exact (C8_shared_speed 1 (⟨[], 2, none⟩ : Transition Bool)).1 [0, 1]
      (by
        have e1 := fadeStep_of_none 1 (⟨[], 2, none⟩ : Transition Bool) 0 rfl
        have e2 := fadeStep_of_none 1 (⟨[], 2, none⟩ : Transition Bool) 1 rfl
        simp [apply_fade, e1, e2])
  · exact (C8_shared_speed 1 (⟨[], 2, some true⟩ : Transition Bool)).2 [] 1 [1]
      true (by simp [apply_fade]) rfl (by norm_num [clampQ])

/-- C9: `handle_transition_events` calls `NextState::set` for every received
message in arrival order, so the next-state slot ends holding the last
message (later overwrites earlier), and a tick with no messages leaves the
slot untouched. -/
theorem C9_last_write_wins {S : Type} (next : Option S) (evs : List S) (e : S) :
    handle_transition_events (evs ++ [e]) next = some e ∧
    handle_transition_events ([] : List S) next = next := by
  constructor
  · simp [handle_transition_events]
  · rfl

/-- C10: a fade-driver tick over an empty overlay query is a complete no-op:
no alpha is written, no message is emitted, and the shared state — including
any pending request and the speed — is left unchanged. -/
theorem C10_tick_without_overlays_noop {S : Type} (dt : ℚ) (t : Transition S) :
    apply_fade dt t [] = ([], t) := rfl

end BevyTransitions
